import Mathlib

/-!
# FormPopulator.js — shallow embedding and verification

This file embeds the value-routing and extraction engine of
`src/FormPopulator.js` (version 1.2.4) in Lean 4 and proves properties of it.

Modelling conventions:
* JavaScript values are the inductive `JSVal`; numbers are modelled as `Int`
  (the decimal-integer fragment of JS numbers — no floats, hex or exponent
  literals appear in any statement below, and `strToNumber` maps every string
  outside that fragment to `none`, the model of `NaN`).
* DOM elements are the structure `Element`: a record of the fields the library
  reads and writes (tag, type, name, id, value, checked state, content,
  options, …).  A container is its list of descendant elements in document
  order; `querySelectorAll('[name=k]')` is `List.filter`, `querySelector('#k')`
  is `List.find?`.
* Enhanced-widget adapters (TomSelect / Selectize / Chosen) and AutoNumeric
  are modelled by presence flags on the element plus an `events` log that
  records every adapter call the library makes.
* Thrown exceptions of the entry points are modelled by an explicit `threw`
  field so that partial mutation before a throw would be observable.  Inside
  the per-key loops the one real throw site is element resolution: for the
  empty key, `querySelector('#' + CSS.escape(''))` runs the invalid selector
  `#` and throws a SyntaxError.  `resolveByNameOrId` carries that error path;
  `findElementsByNameOrId` is the same resolver as the callers observe it
  through their per-key try/catch (a thrown key is skipped, i.e. behaves as
  an empty group).
-/

namespace FormPop

/-- JavaScript values as supplied in the `data` / `keys` arguments. -/
inductive JSVal where
  | vstr (s : String)
  | vnum (n : Int)
  | vbool (b : Bool)
  | vnull
  | vundef
  | varr (elems : List JSVal)
  | vobj (fields : List (String × JSVal))

/-- JS `String(v)` (ToString).  Arrays join their entries with `,`, where
`null`/`undefined` entries stringify to the empty string; plain objects give
`[object Object]`. -/
def jsToString : JSVal → String
  | .vstr s => s
  | .vnum n => toString n
  | .vbool b => cond b "true" "false"
  | .vnull => "null"
  | .vundef => "undefined"
  | .vobj _ => "[object Object]"
  | .varr l => go l
where
  /-- `Array.prototype.join(',')` over stringified entries. -/
  go : List JSVal → String
  | [] => ""
  | x :: xs =>
    let s := match x with
      | .vnull => ""
      | .vundef => ""
      | y => jsToString y
    match xs with
    | [] => s
    | _ => s ++ "," ++ go xs

/-- The ASCII whitespace JS `ToNumber` strips before parsing. -/
def isJsSpace (c : Char) : Bool :=
  c == ' ' || c == '\t' || c == '\n' || c == '\r' || c == '\x0b' || c == '\x0c'

/-- All characters are decimal digits. -/
def allDigits : List Char → Bool
  | [] => true
  | c :: cs => c.isDigit && allDigits cs

/-- Decimal value of a digit list (accumulator form). -/
def digitsToNat : List Char → Nat → Nat
  | [], acc => acc
  | c :: cs, acc => digitsToNat cs (acc * 10 + (c.toNat - 48))

/-- JS `ToNumber` on a string, restricted to the decimal-integer fragment:
optional whitespace, optional sign, decimal digits.  `""` is `0`; every other
string outside the fragment is `NaN`, modelled as `none`. -/
def strToNumber (s : String) : Option Int :=
  match (s.toList.dropWhile isJsSpace).reverse.dropWhile isJsSpace |>.reverse with
  | [] => some 0
  | c :: cs =>
    let sign : Int := if c == '-' then -1 else 1
    let digits := if c == '-' || c == '+' then cs else c :: cs
    if !digits.isEmpty && allDigits digits then
      some (sign * (digitsToNat digits 0 : Nat))
    else none

/-- `toLowerCase()` on the ASCII fragment, written structurally so that closed
terms evaluate. -/
def strToLower (s : String) : String :=
  String.mk (s.toList.map Char.toLower)

/-- JS loose equality `s == v` where the left operand is a DOM string (element
or option `value`): string/string compares text, string/number and
string/boolean coerce the string to a number, `null`/`undefined` never equal a
string, and objects are sent through ToPrimitive (their ToString). -/
def jsLooseEqStr (s : String) : JSVal → Bool
  | .vstr t => s == t
  | .vnum n => strToNumber s == some n
  | .vbool b => strToNumber s == some (cond b 1 0)
  | .vnull => false
  | .vundef => false
  | .varr l => s == jsToString (.varr l)
  | .vobj f => s == jsToString (.vobj f)

/-- JS `v == null`, true exactly for `null` and `undefined`. -/
def jsEqNull : JSVal → Bool
  | .vnull => true
  | .vundef => true
  | _ => false

/-- One `<option>` of a select element. -/
structure SelectOption where
  value : String
  selected : Bool
deriving DecidableEq

/-- A call the library makes into an attached third-party adapter. -/
inductive AdapterEvent where
  | tomClear
  | tomSync
  | tomSetValue (vals : List JSVal)
  | selClear
  | selSetValue (vals : List JSVal)
  | chosenClear
  | chosenSetValue (vals : List JSVal)
  | anSetClear
  | anSetValue (v : JSVal)

/-- `true` for the adapter calls that dispatch a value (step 3 of the select
adapter chain), `false` for the clears issued by `_clearSelect`. -/
def AdapterEvent.isSetDispatch : AdapterEvent → Bool
  | .tomSetValue _ => true
  | .selSetValue _ => true
  | .chosenSetValue _ => true
  | _ => false

/-- A DOM element as seen by the library: exactly the surface it reads and
writes.  `tomselect` / `selectize` model the instance properties the host
attaches; `chosenActive` models `window.jQuery` being present *and*
`$el.data('chosen')` being truthy; `autoNumeric` models the global
`AutoNumeric` existing *and* `getAutoNumericElement` finding an instance,
whose `getNumericString()` result is `anRaw` (`none` models `null`). -/
structure Element where
  tagName : String
  type : String
  name : Option String
  id : Option String
  value : String
  checked : Bool
  textContent : String
  innerHTML : String
  src : String
  href : String
  multiple : Bool
  options : List SelectOption
  tomselect : Bool
  selectize : Bool
  chosenActive : Bool
  autoNumeric : Bool
  anRaw : Option String
  attrs : List (String × String)
  events : List AdapterEvent

/-- An element with every field empty, for building concrete test inputs. -/
def blankElement : Element where
  tagName := "div"
  type := ""
  name := none
  id := none
  value := ""
  checked := false
  textContent := ""
  innerHTML := ""
  src := ""
  href := ""
  multiple := false
  options := []
  tomselect := false
  selectize := false
  chosenActive := false
  autoNumeric := false
  anRaw := none
  attrs := []
  events := []

/-- `_findElementsByNameOrId(container, key)` with its error path: all
elements whose `name` attribute equals `key`, in document order
(`querySelectorAll` with an attribute selector is valid for every key,
`CSS.escape` included); if none, `querySelector('#' + CSS.escape(key))` — for
the empty key `CSS.escape('')` is empty, the selector is the bare `#`, and
the call throws a SyntaxError; for any other key it yields the first element
whose `id` equals `key` as a singleton, else the empty list. -/
def resolveByNameOrId (elems : List Element) (key : String) :
    Except String (List Element) :=
  let byName := elems.filter (fun e => e.name == some key)
  if byName.length > 0 then .ok byName
  else if key = "" then .error "SyntaxError: invalid selector #"
  else
    match elems.find? (fun e => e.id == some key) with
    | some e => .ok [e]
    | none => .ok []

/-- The resolver as populate and getValues observe it through their per-key
try/catch: a throw aborts the key exactly like an empty group does (the
element subtree is untouched and the key contributes nothing), so the caught
view collapses the error to the empty list. -/
def findElementsByNameOrId (elems : List Element) (key : String) : List Element :=
  match resolveByNameOrId elems key with
  | .ok l => l
  | .error _ => []

/-- When some element matches the key by name, resolution is exactly the
name filter. -/
theorem findElements_eq_byName (elems : List Element) (key : String)
    (h : elems.filter (fun e => e.name == some key) ≠ []) :
    findElementsByNameOrId elems key = elems.filter (fun e => e.name == some key) := by
  have hpos : (elems.filter (fun e => e.name == some key)).length > 0 :=
    List.length_pos.mpr h
  unfold findElementsByNameOrId resolveByNameOrId
  simp [hpos]

/-- `_escapeHtml` of one character: the DOM `div.textContent = s; div.innerHTML`
round trip escapes exactly `&`, `<` and `>` on the character set modelled. -/
def escapeHtmlChar (c : Char) : String :=
  if c = '&' then "&amp;"
  else if c = '<' then "&lt;"
  else if c = '>' then "&gt;"
  else String.singleton c

/-- `_escapeHtml` over a character list. -/
def escapeChars : List Char → String
  | [] => ""
  | c :: cs => escapeHtmlChar c ++ escapeChars cs

/-- `_escapeHtml(text)`: HTML-escape a string via the textContent/innerHTML
round trip. -/
def escapeHtml (s : String) : String :=
  escapeChars s.toList

mutual

/-- The item renderer shared (textually duplicated) by `_populateList` and
`_buildNestedListHtml`: a nested array becomes `<li><tag>…</tag></li>` with the
parent's tag, any other entry becomes `<li>` + escaped text + `</li>`. -/
def listItemHtml (tag : String) : JSVal → String
  | .varr sub => "<li><" ++ tag ++ ">" ++ buildNestedListHtml tag sub ++ "</" ++ tag ++ "></li>"
  | v => "<li>" ++ escapeHtml (jsToString v) ++ "</li>"

/-- `_buildNestedListHtml(array, tagName)`: `array.map(item => …).join('')`. -/
def buildNestedListHtml (tag : String) : List JSVal → String
  | [] => ""
  | x :: xs => listItemHtml tag x ++ buildNestedListHtml tag xs

end

/-- `_populateList(element, value)`: a non-array value is escaped and set as
the whole content; an array rebuilds the content as joined list items (the
source's inline `value.map(…).join('')` is the same renderer as
`_buildNestedListHtml`). -/
def populateList (e : Element) (value : JSVal) : Element :=
  match value with
  | .varr l => { e with innerHTML := buildNestedListHtml (strToLower e.tagName) l }
  | v => { e with innerHTML := escapeHtml (jsToString v) }

/-- `_clearSelect(element)`: `selectedIndex = -1` deselects every option; then
the first attached adapter (TomSelect, else Selectize, else Chosen behind
jQuery) receives its own silent clear. -/
def clearSelect (e0 : Element) : Element :=
  let e := { e0 with options := e0.options.map (fun (o : SelectOption) => { o with selected := false }) }
  if e.tomselect then { e with events := e.events ++ [.tomClear, .tomSync] }
  else if e.selectize then { e with events := e.events ++ [.selClear] }
  else if e.chosenActive then { e with events := e.events ++ [.chosenClear] }
  else e

/-- `Array.isArray(value) ? value : [value]`. -/
def wrapArray : JSVal → List JSVal
  | .varr l => l
  | v => [v]

/-- The empty-value guard of `_populateSelect`:
`value == null || (Array.isArray(value) && value.length === 0) || value === ''`. -/
def selectGuardEmpty (value : JSVal) : Bool :=
  jsEqNull value ||
  (match value with | .varr l => l.isEmpty | _ => false) ||
  (match value with | .vstr s => s == "" | _ => false)

/-- The native single-select loop of `_populateSelect`: walk the options and
select the first one whose value loose-equals the scalar, then stop. -/
def selectFirstMatch (v : JSVal) : List SelectOption → List SelectOption
  | [] => []
  | o :: rest =>
    if jsLooseEqStr o.value v then { o with selected := true } :: rest
    else o :: selectFirstMatch v rest

/-- `_populateSelect(element, value)`: always clear first; stop on the empty
guard; otherwise dispatch to the first attached adapter (TomSelect →
Selectize → Chosen), else drive the native options: an array selects every
loose-matching option, a scalar selects only the first loose match. -/
def populateSelect (e0 : Element) (value : JSVal) : Element :=
  let e := clearSelect e0
  if selectGuardEmpty value then e
  else if e.tomselect then
    { e with events := e.events ++ [.tomSetValue (wrapArray value), .tomSync] }
  else if e.selectize then
    { e with events := e.events ++ [.selSetValue (wrapArray value)] }
  else if e.chosenActive then
    { e with events := e.events ++ [.chosenSetValue (wrapArray value)] }
  else
    match value with
    | .varr l =>
      { e with options := e.options.map (fun (o : SelectOption) =>
          { o with selected := l.any (fun v => jsLooseEqStr o.value v) }) }
    | v => { e with options := selectFirstMatch v e.options }

/-- Set (replace or append) one attribute in an attribute list. -/
def setAttr (attrs : List (String × String)) (nm : String) (v : String) :
    List (String × String) :=
  if attrs.any (fun p => p.1 == nm) then
    attrs.map (fun p => if p.1 == nm then (nm, v) else p)
  else attrs ++ [(nm, v)]

/-- Remove one attribute from an attribute list. -/
def removeAttr (attrs : List (String × String)) (nm : String) : List (String × String) :=
  attrs.filter (fun p => p.1 != nm)

/-- `_setElementAttributes(element, attributes)`: `undefined` removes the
attribute, `null` sets it present with empty value, anything else sets its
stringification. -/
def setElementAttributes (e : Element) (attributes : List (String × JSVal)) : Element :=
  attributes.foldl (fun e p =>
    match p.2 with
    | .vundef => { e with attrs := removeAttr e.attrs p.1 }
    | .vnull => { e with attrs := setAttr e.attrs p.1 "" }
    | v => { e with attrs := setAttr e.attrs p.1 (jsToString v) }) e

/-- Apply a key's attribute map when present (the `if(keyAttrs)` tail shared
by all the per-element setters). -/
def applyKeyAttrs (e : Element) : Option (List (String × JSVal)) → Element
  | some a => setElementAttributes e a
  | none => e

/-- `_populateElement(element, value, sanitizeHtml)`: coerce `null`/`undefined`
to `""`, then route by lowercased tag.  Checkbox/radio/file inputs are left
untouched; an attached AutoNumeric instance receives `set(value)` (the
source's inner null check is dead after the coercion); text inputs and
textareas get the stringified value; selects go to `populateSelect`; media
tags set `src`, links set `href`, lists go to `populateList`; any other tag
gets `textContent` (mirrored into `innerHTML` escaped, as the DOM does) when
`sanitizeHtml` is true, else raw `innerHTML` (the derived plain-text content
of raw markup is not modelled and left unchanged). -/
def populateElement (e : Element) (value0 : JSVal) (sanitizeHtml : Bool) : Element :=
  let value := if jsEqNull value0 then .vstr "" else value0
  let tag := strToLower e.tagName
  if tag == "input" then
    if e.type == "checkbox" || e.type == "radio" then e
    else if e.type == "file" then e
    else if e.autoNumeric then { e with events := e.events ++ [.anSetValue value] }
    else { e with value := jsToString value }
  else if tag == "textarea" then { e with value := jsToString value }
  else if tag == "select" then populateSelect e value
  else if tag == "img" || tag == "video" || tag == "audio" || tag == "iframe" then
    { e with src := jsToString value }
  else if tag == "a" then { e with href := jsToString value }
  else if tag == "ul" || tag == "ol" then populateList e value
  else if sanitizeHtml then
    { e with textContent := jsToString value, innerHTML := escapeHtml (jsToString value) }
  else
    { e with innerHTML := jsToString value }

/-- `_uncheckRadio(element, keyAttrs)`. -/
def uncheckRadio (e0 : Element) (keyAttrs : Option (List (String × JSVal))) : Element :=
  applyKeyAttrs { e0 with checked := false } keyAttrs

/-- `_setRadioChecked(element, targetValue, keyAttrs)`:
`element.checked = element.value == targetValue` (JS loose equality). -/
def setRadioChecked (e0 : Element) (targetValue : JSVal)
    (keyAttrs : Option (List (String × JSVal))) : Element :=
  applyKeyAttrs { e0 with checked := jsLooseEqStr e0.value targetValue } keyAttrs

/-- `_setCheckboxChecked(element, valuesToCheck, keyAttrs)`: checked iff some
entry loose-equals the element's value (the source compares
`valuesToCheck[i] == element.value`; loose equality between a DOM string and
these operand kinds is symmetric). -/
def setCheckboxChecked (e0 : Element) (valuesToCheck : List JSVal)
    (keyAttrs : Option (List (String × JSVal))) : Element :=
  applyKeyAttrs { e0 with checked := valuesToCheck.any (fun v => jsLooseEqStr e0.value v) }
    keyAttrs

/-- `_populateIndexedElement(element, valuesToSet, fallbackValue, index,
sanitizeHtml, keyAttrs)`: `valuesToSet ? (valuesToSet[index] ?? '') :
fallbackValue` (an array is always truthy; `??` turns a missing index and a
`null`/`undefined` entry into `''`), then `_populateElement` and the
attributes. -/
def populateIndexedElement (e : Element) (valuesToSet : Option (List JSVal))
    (fallbackValue : JSVal) (index : Nat) (sanitizeHtml : Bool)
    (keyAttrs : Option (List (String × JSVal))) : Element :=
  let v := match valuesToSet with
    | some l =>
      match l.get? index with
      | some x => if jsEqNull x then .vstr "" else x
      | none => .vstr ""
    | none => fallbackValue
  applyKeyAttrs (populateElement e v sanitizeHtml) keyAttrs

/-- The indexed `for(let i = 0; i < elements.length; i++)` loop. -/
def mapWithIndex (f : Nat → Element → Element) : Nat → List Element → List Element
  | _, [] => []
  | i, e :: rest => f i e :: mapWithIndex f (i + 1) rest

/-- `Array.isArray(value) ? value : null` — the `valuesToSet` of the fan-out
branch. -/
def valuesToSetOf : JSVal → Option (List JSVal)
  | .varr l => some l
  | _ => none

/-- The per-key group handling of `populate` (source lines 46–79): the fan-out
branch is taken when the group has more than one element or its first element
is a radio or checkbox, and which fan-out applies is decided by the first
element's `type`; a single other element goes to `_populateElement` plus the
key's attributes. -/
def populateGroup (group : List Element) (value : JSVal)
    (keyAttrs : Option (List (String × JSVal))) (sanitizeHtml : Bool) : List Element :=
  match group with
  | [] => []
  | e0 :: _ =>
    if group.length > 1 || e0.type == "radio" || e0.type == "checkbox" then
      if e0.type == "radio" then
        if jsEqNull value then group.map (fun e => uncheckRadio e keyAttrs)
        else group.map (fun e => setRadioChecked e value keyAttrs)
      else if e0.type == "checkbox" then
        group.map (fun e => setCheckboxChecked e (wrapArray value) keyAttrs)
      else
        mapWithIndex
          (fun i e =>
            populateIndexedElement e (valuesToSetOf value) value i sanitizeHtml keyAttrs)
          0 group
    else
      [applyKeyAttrs (populateElement e0 value sanitizeHtml) keyAttrs]

/-- Write the mutated group back into the container: matched positions (in
document order) receive the successive updated elements; by-reference DOM
mutation is modelled as positional replacement. -/
def replaceMatches (p : Element → Bool) : List Element → List Element → List Element
  | [], _ => []
  | e :: rest, repl =>
    if p e then
      match repl with
      | r :: rs => r :: replaceMatches p rest rs
      | [] => e :: replaceMatches p rest []
    else e :: replaceMatches p rest repl

/-- Replace the first element satisfying `p` (the by-id fallback target). -/
def replaceFirstWhere (p : Element → Bool) (r : Element) : List Element → List Element
  | [] => []
  | e :: rest => if p e then r :: rest else e :: replaceFirstWhere p r rest

/-- One iteration of populate's `for(let key in data)` loop over the whole
container: resolve, skip when empty (warn), otherwise run the group handler
and write the updated elements back in place. -/
def populateKeyStep (elems : List Element) (key : String) (value : JSVal)
    (keyAttrs : Option (List (String × JSVal))) (sanitizeHtml : Bool) : List Element :=
  let group := findElementsByNameOrId elems key
  if group.isEmpty then elems
  else
    let newGroup := populateGroup group value keyAttrs sanitizeHtml
    if (elems.filter (fun e => e.name == some key)).length > 0 then
      replaceMatches (fun e => e.name == some key) elems newGroup
    else
      match newGroup with
      | [r] => replaceFirstWhere (fun e => e.id == some key) r elems
      | _ => elems

/-- A container argument: `nodeTypeTruthy` models `container.nodeType` being
truthy, `elems` its descendant elements in document order; a `none` argument
models a `null`/`undefined`/falsy container. -/
structure Container where
  nodeTypeTruthy : Bool
  elems : List Element

/-- The shared argument check `!container || !container.nodeType`. -/
def containerInvalid : Option Container → Bool
  | none => true
  | some c => !c.nodeTypeTruthy

/-- The elements of the container argument (none for a missing container). -/
def containerElems : Option Container → List Element
  | none => []
  | some c => c.elems

/-- Result of `populate`: the container's elements after the call and the
message thrown, if any.  Carrying the elements alongside `threw` makes
mutation-before-throw observable. -/
structure PopulateResult where
  elems : List Element
  threw : Option String

/-- JS `typeof v === 'object'` (true for `null`, arrays and plain objects). -/
def jsTypeofIsObject : JSVal → Bool
  | .vnull => true
  | .varr _ => true
  | .vobj _ => true
  | _ => false

/-- `v === null` (strict). -/
def isVNull : JSVal → Bool
  | .vnull => true
  | _ => false

/-- `for(let key in data)` with `hasOwnProperty`: own enumerable entries — an
object's fields, an array's indices stringified. -/
def dataEntries : JSVal → List (String × JSVal)
  | .vobj fields => fields
  | .varr l => l.enum.map (fun p => (toString p.1, p.2))
  | _ => []

/-- `attributes.hasOwnProperty(key) ? attributes[key] : null`. -/
def lookupAttrs (attributes : List (String × List (String × JSVal))) (key : String) :
    Option (List (String × JSVal)) :=
  (attributes.find? (fun p => p.1 == key)).map (fun p => p.2)

/-- `populate(container, data, attributes, sanitizeHtml)`: the two argument
checks throw before the loop touches any element; then every own entry of
`data` runs one `populateKeyStep`. -/
def populate (container : Option Container) (data : JSVal)
    (attributes : List (String × List (String × JSVal))) (sanitizeHtml : Bool) :
    PopulateResult :=
  if containerInvalid container then
    { elems := containerElems container, threw := some "Container must be a valid DOM element" }
  else if !jsTypeofIsObject data || isVNull data then
    { elems := containerElems container, threw := some "Data must be a non-null object" }
  else
    { elems := (dataEntries data).foldl
        (fun es kv => populateKeyStep es kv.1 kv.2 (lookupAttrs attributes kv.1) sanitizeHtml)
        (containerElems container),
      threw := none }

/-- A value of the result object of `getValues`: a string or a (possibly
nested, for multi-selects inside a shared-name group) array. -/
inductive GotVal where
  | gstr (s : String)
  | glist (l : List GotVal)

/-- `_extractInputValue(element)`: checkbox/radio give their value when
checked, else `""`; an attached AutoNumeric gives its clean numeric string
(`""` for `null`); anything else gives `element.value || ""` (which is
`element.value`, the only falsy string being `""`). -/
def extractInputValue (e : Element) : GotVal :=
  let ty := strToLower e.type
  if ty == "checkbox" || ty == "radio" then .gstr (if e.checked then e.value else "")
  else if e.autoNumeric then
    .gstr (match e.anRaw with | none => "" | some raw => raw)
  else .gstr e.value

/-- `_extractSelectValue(element)`: a multi-select gives the array of selected
option values; a single select gives `element.value`, i.e. the selected
option's value or `""` when none is selected. -/
def extractSelectValue (e : Element) : GotVal :=
  if e.multiple then
    .glist ((e.options.filter (fun o => o.selected)).map (fun o => .gstr o.value))
  else
    .gstr (((e.options.find? (fun o => o.selected)).map (fun o => o.value)).getD "")

/-- `_extractElementValue(element)`: route by lowercased tag. -/
def extractElementValue (e : Element) : GotVal :=
  let tag := strToLower e.tagName
  if tag == "input" then extractInputValue e
  else if tag == "textarea" then .gstr e.value
  else if tag == "select" then extractSelectValue e
  else if tag == "img" || tag == "video" || tag == "audio" || tag == "iframe" then
    .gstr e.src
  else if tag == "a" then .gstr e.href
  else .gstr (if e.textContent != "" then e.textContent else e.innerHTML)

/-- The per-key body of `getValues` (source lines 184–215): `none` models the
key being omitted from the result object. -/
def extractKey (elems : List Element) (key : String) : Option GotVal :=
  match findElementsByNameOrId elems key with
  | [] => none
  | e0 :: rest =>
    let group := e0 :: rest
    if e0.type == "radio" then
      some (.gstr (match group.find? (fun el => el.checked) with
        | some el => el.value
        | none => ""))
    else if e0.type == "checkbox" then
      let checkedValues := (group.filter (fun el => el.checked)).map (fun el => el.value)
      match checkedValues with
      | [v] => some (.gstr v)
      | [] => none
      | vs => if vs.length > 1 then some (.glist (vs.map (fun v => .gstr v))) else none
  else
      if group.length == 1 then some (extractElementValue e0)
      else some (.glist (group.map extractElementValue))

/-- `values[key] = v` on a JS object modelled as an assoc list: replace an
existing entry, else append. -/
def objSet (obj : List (String × GotVal)) (key : String) (v : GotVal) :
    List (String × GotVal) :=
  if obj.any (fun p => p.1 == key) then
    obj.map (fun p => if p.1 == key then (key, v) else p)
  else obj ++ [(key, v)]

/-- `getValues(container, keys)`: throws on an invalid container or a
non-array `keys`; a non-string entry of `keys` is logged and skipped; every
string key contributes its extracted value, omitted keys contribute nothing. -/
def getValues (container : Option Container) (keys : JSVal) :
    Except String (List (String × GotVal)) :=
  if containerInvalid container then .error "Container must be a valid DOM element"
  else match keys with
  | .varr ks =>
    .ok (ks.foldl (fun acc k =>
      match k with
      | .vstr key =>
        match extractKey (containerElems container) key with
        | some v => objSet acc key v
        | none => acc
      | _ => acc) [])
  | _ => .error "Keys must be an array"

/-- `Array.isArray(v)`. -/
def isArr : JSVal → Bool
  | .varr _ => true
  | _ => false

/-- `typeof v === 'string'`. -/
def isVStr : JSVal → Bool
  | .vstr _ => true
  | _ => false

/-- `_setElementAttributes` touches only the `attrs` field. -/
theorem setElementAttributes_eq (e : Element) (a : List (String × JSVal)) :
    setElementAttributes e a = { e with attrs := (setElementAttributes e a).attrs } := by
  induction a generalizing e with
  | nil => rfl
  | cons p rest ih =>
    unfold setElementAttributes at ih ⊢
    cases p with
    | mk nm v =>
      cases v <;> simp only [List.foldl_cons] <;> exact ih _

/-- `applyKeyAttrs` touches only the `attrs` field. -/
theorem applyKeyAttrs_eq (e : Element) (keyAttrs : Option (List (String × JSVal))) :
    applyKeyAttrs e keyAttrs = { e with attrs := (applyKeyAttrs e keyAttrs).attrs } := by
  cases keyAttrs with
  | none => rfl
  | some a => exact setElementAttributes_eq e a

theorem applyKeyAttrs_checked (e : Element) (keyAttrs : Option (List (String × JSVal))) :
    (applyKeyAttrs e keyAttrs).checked = e.checked := by
  conv_lhs => rw [applyKeyAttrs_eq]

/-- The indexed loop computes, at every position, the body applied to the
element there and its index. -/
theorem mapWithIndex_get? (f : Nat → Element → Element) (start : Nat)
    (l : List Element) (i : Nat) :
    (mapWithIndex f start l).get? i = (l.get? i).map (fun e => f (start + i) e) := by
  induction l generalizing start i with
  | nil => simp [mapWithIndex]
  | cons e rest ih =>
    cases i with
    | zero => simp [mapWithIndex]
    | succ j =>
      simp only [mapWithIndex, List.get?]
      rw [ih (start + 1) j]
      have harg : start + 1 + j = start + (j + 1) := by omega
      rw [harg]

theorem mapWithIndex_length (f : Nat → Element → Element) (start : Nat) (l : List Element) :
    (mapWithIndex f start l).length = l.length := by
  induction l generalizing start with
  | nil => rfl
  | cons e rest ih => simp [mapWithIndex, ih]

/-- An index-independent body makes the indexed loop an ordinary map. -/
theorem mapWithIndex_const (f : Element → Element) (start : Nat) (l : List Element) :
    mapWithIndex (fun _ e => f e) start l = l.map f := by
  induction l generalizing start with
  | nil => rfl
  | cons e rest ih => simp [mapWithIndex, ih]

/-- C2: populate raises the fatal TypeMismatch whenever the container is not
a DOM-element-like reference (missing or with falsy nodeType) or the data
argument is not a non-null object, and when it does, the container's elements
are exactly the ones it held before the call — the error precedes any
mutation. -/
theorem populate_typeMismatch_before_any_mutation
    (container : Option Container) (data : JSVal)
    (attributes : List (String × List (String × JSVal))) (sanitizeHtml : Bool)
    (hbad : containerInvalid container = true ∨ jsTypeofIsObject data = false ∨
      data = .vnull) :
    (populate container data attributes sanitizeHtml).threw.isSome = true ∧
    (populate container data attributes sanitizeHtml).elems = containerElems container := by
  unfold populate
  rcases hbad with h | h | h
  · simp [h]
  · have hcond : (!jsTypeofIsObject data || isVNull data) = true := by simp [h]
    by_cases hc : containerInvalid container = true <;> simp [hc, hcond]
  · subst h
    by_cases hc : containerInvalid container = true <;>
      simp [hc, isVNull, jsTypeofIsObject]

/-- Witness for C2: a string `data` argument throws and leaves the single
element of a valid container untouched. -/
theorem populate_typeMismatch_witness :
    (containerInvalid (some { nodeTypeTruthy := true, elems := [blankElement] }) = true ∨
      jsTypeofIsObject (.vstr "oops") = false ∨ (JSVal.vstr "oops") = .vnull) ∧
    (populate (some { nodeTypeTruthy := true, elems := [blankElement] })
        (.vstr "oops") [] true).threw.isSome = true ∧
    (populate (some { nodeTypeTruthy := true, elems := [blankElement] })
        (.vstr "oops") [] true).elems =
      containerElems (some { nodeTypeTruthy := true, elems := [blankElement] }) :=
  ⟨Or.inr (Or.inl rfl),
    populate_typeMismatch_before_any_mutation
      (some { nodeTypeTruthy := true, elems := [blankElement] })
      (.vstr "oops") [] true (Or.inr (Or.inl rfl))⟩

/-- A non-array value wraps into a one-entry array. -/
theorem wrapArray_scalar (v : JSVal) (h : isArr v = false) : wrapArray v = [v] := by
  cases v <;> first | rfl | simp [isArr] at h

/-- C3: for a checkbox group, getValues omits the key when zero boxes are
checked, returns the single checked value as a scalar string when exactly one
is checked, and returns the sequence of checked values when two or more are —
while populate normalizes a scalar to a one-entry sequence for the same group,
the intentional asymmetry. -/
theorem getValues_checkbox_scalar_collapse (elems : List Element) (key : String)
    (e0 : Element) (rest : List Element)
    (hres : findElementsByNameOrId elems key = e0 :: rest)
    (htype : e0.type = "checkbox") :
    (((e0 :: rest).filter (fun el => el.checked)).map (fun el => el.value) = [] →
      extractKey elems key = none) ∧
    (∀ v, ((e0 :: rest).filter (fun el => el.checked)).map (fun el => el.value) = [v] →
      extractKey elems key = some (.gstr v)) ∧
    (∀ vs, ((e0 :: rest).filter (fun el => el.checked)).map (fun el => el.value) = vs →
      2 ≤ vs.length →
      extractKey elems key = some (.glist (vs.map (fun v => .gstr v)))) ∧
    (∀ (value : JSVal) (keyAttrs : Option (List (String × JSVal))) (s : Bool),
      isArr value = false →
      populateGroup (e0 :: rest) value keyAttrs s =
        populateGroup (e0 :: rest) (.varr [value]) keyAttrs s) := by
  have hr : (e0.type == "radio") = false := by rw [htype]; rfl
  have hc : (e0.type == "checkbox") = true := by rw [htype]; rfl
  have hbody : extractKey elems key =
      (match ((e0 :: rest).filter (fun el => el.checked)).map (fun el => el.value) with
        | [v] => some (.gstr v)
        | [] => none
        | vs => if vs.length > 1 then some (.glist (vs.map (fun v => .gstr v)))
                else none) := by
    unfold extractKey
    rw [hres]
    simp only [hr, hc, Bool.false_eq_true, if_false, if_true]
  refine ⟨?_, ?_, ?_, ?_⟩
  · intro h
    rw [hbody, h]
  · intro v h
    rw [hbody, h]
  · intro vs h hlen
    rw [hbody, h]
    match vs, hlen with
    | a :: b :: t, _ =>
      have : (a :: b :: t).length > 1 := by simp
      simp [this]
  · intro value keyAttrs s hscal
    unfold populateGroup
    simp only [hr, hc, Bool.false_eq_true, if_false, if_true, Bool.or_true]
    rw [wrapArray_scalar value hscal]
    rfl

/-- A checked checkbox named `perm` with value `read`, for the C3 witness. -/
def permReadBox : Element := { blankElement with
  tagName := "input"
  type := "checkbox"
  name := some "perm"
  value := "read"
  checked := true }

/-- An unchecked checkbox named `perm` with value `write`, for the C3
witness. -/
def permWriteBox : Element := { blankElement with
  tagName := "input"
  type := "checkbox"
  name := some "perm"
  value := "write"
  checked := false }

/-- Witness for C3 at a concrete two-checkbox group with exactly one box
checked: the extracted value is the scalar string `read`. -/
theorem getValues_checkbox_scalar_collapse_witness :
    findElementsByNameOrId [permReadBox, permWriteBox] "perm" =
      [permReadBox, permWriteBox] ∧
    permReadBox.type = "checkbox" ∧
    extractKey [permReadBox, permWriteBox] "perm" = some (.gstr "read") := by
  refine ⟨rfl, rfl, ?_⟩
  exact (getValues_checkbox_scalar_collapse [permReadBox, permWriteBox] "perm"
    permReadBox [permWriteBox] rfl rfl).2.1 "read" rfl

/-- `_uncheckRadio` always leaves the element unchecked. -/
theorem uncheckRadio_checked (e : Element) (keyAttrs : Option (List (String × JSVal))) :
    (uncheckRadio e keyAttrs).checked = false := by
  unfold uncheckRadio
  rw [applyKeyAttrs_checked]

/-- `_setRadioChecked` sets the checked state to the loose-equality test. -/
theorem setRadioChecked_checked (e : Element) (v : JSVal)
    (keyAttrs : Option (List (String × JSVal))) :
    (setRadioChecked e v keyAttrs).checked = jsLooseEqStr e.value v := by
  unfold setRadioChecked
  rw [applyKeyAttrs_checked]

/-- A value that is neither `null` nor `undefined` fails the `== null` test. -/
theorem jsEqNull_eq_false (value : JSVal) (h1 : value ≠ .vnull) (h2 : value ≠ .vundef) :
    jsEqNull value = false := by
  cases value <;> first | rfl | exact absurd rfl h1 | exact absurd rfl h2

/-- A radio whose value is the string `05`, for the C4 counterexample. -/
def radioZeroFive : Element := { blankElement with
  tagName := "input"
  type := "radio"
  name := some "rating"
  value := "05" }

/-- C4 counterexample: populating a radio group with the number `5` checks the
radio whose value is the string `"05"` (JS `==` coerces the string
numerically), although `"05"` is not the stringified target `"5"` — so
"checked exactly when the element's value equals the stringified target
value" is false on the code. -/
theorem radio_stringified_match_counterexample :
    (populateGroup [radioZeroFive] (.vnum 5) none true).map (fun e => e.checked) =
      [true] ∧
    (radioZeroFive.value == jsToString (.vnum 5)) = false :=
  ⟨rfl, rfl⟩

/-- C4 amended: for a radio-headed group, populate with `null`/`undefined`
unchecks every element; for any other value each element's checked state
becomes true exactly when its own value loose-equals the target under the
language's coercive `==` (numeric comparison for a numeric target, e.g. `"05"`
matches `5`), not necessarily when it equals the stringified target text. -/
theorem radio_loose_match_amended (group : List Element) (e0 : Element)
    (rest : List Element) (hg : group = e0 :: rest) (htype : e0.type = "radio")
    (value : JSVal) (keyAttrs : Option (List (String × JSVal))) (s : Bool) :
    ((value = .vnull ∨ value = .vundef) →
      ∀ e ∈ populateGroup group value keyAttrs s, e.checked = false) ∧
    (value ≠ .vnull → value ≠ .vundef →
      (populateGroup group value keyAttrs s).map (fun e => e.checked) =
        group.map (fun e => jsLooseEqStr e.value value)) := by
  subst hg
  have hr : (e0.type == "radio") = true := by rw [htype]; rfl
  constructor
  · intro hnull e he
    have hn : jsEqNull value = true := by
      rcases hnull with rfl | rfl <;> rfl
    simp only [populateGroup, hr, Bool.or_true, Bool.true_or, if_true, hn] at he
    rcases List.mem_map.mp he with ⟨x, _, rfl⟩
    exact uncheckRadio_checked x keyAttrs
  · intro h1 h2
    have hn : jsEqNull value = false := jsEqNull_eq_false value h1 h2
    simp only [populateGroup, hr, Bool.or_true, Bool.true_or, if_true, hn,
      Bool.false_eq_true, if_false]
    rw [List.map_map]
    have hfun : ((fun e : Element => e.checked) ∘
          fun e => setRadioChecked e value keyAttrs) =
        fun e : Element => jsLooseEqStr e.value value :=
      funext fun e => setRadioChecked_checked e value keyAttrs
    rw [hfun]

/-- A radio named `rating` with value `4`, for the C4 witness. -/
def ratingFour : Element := { blankElement with
  tagName := "input"
  type := "radio"
  name := some "rating"
  value := "4" }

/-- A radio named `rating` with value `5`, for the C4 witness. -/
def ratingFive : Element := { blankElement with
  tagName := "input"
  type := "radio"
  name := some "rating"
  value := "5" }

/-- Witness for the amended C4: populate `rating: 5` (a number) on the radios
valued `4` and `5` checks exactly the one whose value is the string `5`. -/
theorem radio_loose_match_amended_witness :
    ratingFour.type = "radio" ∧
    (populateGroup [ratingFour, ratingFive] (.vnum 5) none true).map
        (fun e => e.checked) = [false, true] := by
  refine ⟨rfl, ?_⟩
  have h := (radio_loose_match_amended [ratingFour, ratingFive] ratingFour
    [ratingFive] rfl rfl (.vnum 5) none true).2
    (fun hc => JSVal.noConfusion hc) (fun hc => JSVal.noConfusion hc)
  rw [h]
  rfl



/-- A `null`/`undefined` value is routed exactly like the empty string by
`_populateElement` (the coercion at its top). -/
theorem populateElement_nullCoerce (e : Element) (x : JSVal) (s : Bool)
    (h : jsEqNull x = true) :
    populateElement e x s = populateElement e (.vstr "") s := by
  unfold populateElement
  rw [h]
  rfl

/-- `_populateIndexedElement` with an array distributes entry `i` (with a
missing or `null`/`undefined` entry behaving like the empty string). -/
theorem populateIndexedElement_arr (e : Element) (l : List JSVal) (value : JSVal)
    (i : Nat) (s : Bool) (keyAttrs : Option (List (String × JSVal))) :
    populateIndexedElement e (some l) value i s keyAttrs =
      applyKeyAttrs (populateElement e (l.getD i (.vstr "")) s) keyAttrs := by
  have hbody : populateIndexedElement e (some l) value i s keyAttrs =
      applyKeyAttrs (populateElement e
        (match l.get? i with
          | some x => if jsEqNull x = true then JSVal.vstr "" else x
          | none => JSVal.vstr "") s) keyAttrs := rfl
  rw [hbody, List.getD_eq_get?]
  cases hx : l.get? i with
  | none => rfl
  | some x =>
    by_cases hn : jsEqNull x = true
    · simp only [hn, if_true, Option.getD_some]
      exact congrArg (fun q => applyKeyAttrs q keyAttrs)
        (populateElement_nullCoerce e x s hn).symm
    · simp only [Bool.not_eq_true] at hn
      simp only [hn, Bool.false_eq_true, if_false, Option.getD_some]

/-- A non-array value gives `valuesToSet = null` in populate's fan-out. -/
theorem valuesToSetOf_scalar (value : JSVal) (h : isArr value = false) :
    valuesToSetOf value = none := by
  cases value <;> first | rfl | simp [isArr] at h

/-- The per-element update of populate's fan-out branch as a function of the
*first* element's type only — the three branches of source lines 51–72. -/
def groupBranchUpdate (headType : String) (value : JSVal)
    (keyAttrs : Option (List (String × JSVal))) (sanitizeHtml : Bool)
    (i : Nat) (e : Element) : Element :=
  if headType == "radio" then
    if jsEqNull value then uncheckRadio e keyAttrs
    else setRadioChecked e value keyAttrs
  else if headType == "checkbox" then
    setCheckboxChecked e (wrapArray value) keyAttrs
  else
    populateIndexedElement e (valuesToSetOf value) value i sanitizeHtml keyAttrs

/-- On a group of two or more elements, populate's group handling is the
indexed loop of the branch selected by the first element's type. -/
theorem populateGroup_eq_mapWithIndex (e0 : Element) (rest : List Element)
    (hlen : rest ≠ []) (value : JSVal) (keyAttrs : Option (List (String × JSVal)))
    (sanitizeHtml : Bool) :
    populateGroup (e0 :: rest) value keyAttrs sanitizeHtml =
      mapWithIndex
        (fun i e => groupBranchUpdate e0.type value keyAttrs sanitizeHtml i e)
        0 (e0 :: rest) := by
  have hgt : decide ((e0 :: rest).length > 1) = true := by
    cases rest with
    | nil => exact absurd rfl hlen
    | cons b t => simp
  have hbranch : populateGroup (e0 :: rest) value keyAttrs sanitizeHtml =
      mapWithIndex
        (fun i e => groupBranchUpdate e0.type value keyAttrs sanitizeHtml i e)
        0 (e0 :: rest) := by
    unfold populateGroup
    simp only [hgt, Bool.true_or, if_true]
    by_cases hr : (e0.type == "radio") = true
    · by_cases hn : jsEqNull value = true
      · have hfun : (fun (i : Nat) (e : Element) =>
              groupBranchUpdate e0.type value keyAttrs sanitizeHtml i e) =
            fun _ e => uncheckRadio e keyAttrs := by
          funext i e
          simp [groupBranchUpdate, hr, hn]
        simp only [hr, hn, if_true]
        rw [hfun, mapWithIndex_const]
      · simp only [Bool.not_eq_true] at hn
        have hfun : (fun (i : Nat) (e : Element) =>
              groupBranchUpdate e0.type value keyAttrs sanitizeHtml i e) =
            fun _ e => setRadioChecked e value keyAttrs := by
          funext i e
          simp [groupBranchUpdate, hr, hn]
        simp only [hr, hn, if_true, Bool.false_eq_true, if_false]
        rw [hfun, mapWithIndex_const]
    · simp only [Bool.not_eq_true] at hr
      by_cases hc : (e0.type == "checkbox") = true
      · have hfun : (fun (i : Nat) (e : Element) =>
              groupBranchUpdate e0.type value keyAttrs sanitizeHtml i e) =
            fun _ e => setCheckboxChecked e (wrapArray value) keyAttrs := by
          funext i e
          simp [groupBranchUpdate, hr, hc]
        simp only [hr, hc, if_true, Bool.false_eq_true, if_false]
        rw [hfun, mapWithIndex_const]
      · simp only [Bool.not_eq_true] at hc
        have hfun : (fun (i : Nat) (e : Element) =>
              groupBranchUpdate e0.type value keyAttrs sanitizeHtml i e) =
            fun i e => populateIndexedElement e (valuesToSetOf value)
              value i sanitizeHtml keyAttrs := by
          funext i e
          simp [groupBranchUpdate, hr, hc]
        simp only [hr, hc, Bool.false_eq_true, if_false]
        rw [hfun]
  exact hbranch

/-- C10: when a key resolves to two or more elements, the handling applied to
every element of the group is the branch selected by the *first* element's
type alone: each position `i` holds exactly the first-type branch update of
the original element at `i`, whatever that element's own type is. -/
theorem fanout_branch_determined_by_first_type (e0 : Element) (rest : List Element)
    (hlen : rest ≠ []) (value : JSVal) (keyAttrs : Option (List (String × JSVal)))
    (sanitizeHtml : Bool) :
    (populateGroup (e0 :: rest) value keyAttrs sanitizeHtml).length =
      (e0 :: rest).length ∧
    ∀ i, (populateGroup (e0 :: rest) value keyAttrs sanitizeHtml).get? i =
      ((e0 :: rest).get? i).map
        (fun e => groupBranchUpdate e0.type value keyAttrs sanitizeHtml i e) := by
  have hb := populateGroup_eq_mapWithIndex e0 rest hlen value keyAttrs sanitizeHtml
  refine ⟨?_, ?_⟩
  · rw [hb, mapWithIndex_length]
  · intro i
    rw [hb, mapWithIndex_get?]
    simp

/-- A text input named `a`, first element of mixed-group witnesses. -/
def textInputA : Element := { blankElement with
  tagName := "input"
  type := "text"
  name := some "a"
  value := "old1" }

/-- A *checkbox* also named `a`, second element of mixed-group witnesses: its
own type does not change how it is handled. -/
def strayCheckboxA : Element := { blankElement with
  tagName := "input"
  type := "checkbox"
  name := some "a"
  value := "cb" }

/-- Witness for C10: in the group [text input, checkbox] the second element is
handled under the *first* element's (non-radio, non-checkbox) fan-out branch. -/
theorem fanout_branch_determined_by_first_type_witness :
    ([strayCheckboxA] ≠ ([] : List Element)) ∧
    (populateGroup [textInputA, strayCheckboxA] (.vstr "x") none true).get? 1 =
      (([textInputA, strayCheckboxA] : List Element).get? 1).map
        (fun e => groupBranchUpdate textInputA.type (.vstr "x") none true 1 e) :=
  ⟨fun h => List.noConfusion h,
    (fanout_branch_determined_by_first_type textInputA [strayCheckboxA]
      (fun h => List.noConfusion h) (.vstr "x") none true).2 1⟩

/-- `_populateIndexedElement` with `valuesToSet = null` falls back to the
shared scalar. -/
theorem populateIndexedElement_scalar (e : Element) (value : JSVal) (i : Nat)
    (s : Bool) (keyAttrs : Option (List (String × JSVal))) :
    populateIndexedElement e none value i s keyAttrs =
      applyKeyAttrs (populateElement e value s) keyAttrs := rfl

/-- C7: in non-radio, non-checkbox same-key fan-out, a sequence value is
distributed positionally — element `i` receives entry `i`, or the empty
string when the sequence is shorter — the group keeps its length so entries
beyond it are dropped, and a non-sequence value is written to every element. -/
theorem fanout_positional_distribution (e0 : Element) (rest : List Element)
    (hlen : rest ≠ []) (hnr : (e0.type == "radio") = false)
    (hnc : (e0.type == "checkbox") = false) (value : JSVal)
    (keyAttrs : Option (List (String × JSVal))) (sanitizeHtml : Bool) :
    (populateGroup (e0 :: rest) value keyAttrs sanitizeHtml).length =
      (e0 :: rest).length ∧
    (∀ l, value = .varr l →
      ∀ i, (populateGroup (e0 :: rest) value keyAttrs sanitizeHtml).get? i =
        ((e0 :: rest).get? i).map (fun e =>
          applyKeyAttrs (populateElement e (l.getD i (.vstr "")) sanitizeHtml)
            keyAttrs)) ∧
    (isArr value = false →
      ∀ i, (populateGroup (e0 :: rest) value keyAttrs sanitizeHtml).get? i =
        ((e0 :: rest).get? i).map (fun e =>
          applyKeyAttrs (populateElement e value sanitizeHtml) keyAttrs)) := by
  have hb := populateGroup_eq_mapWithIndex e0 rest hlen value keyAttrs sanitizeHtml
  refine ⟨?_, ?_, ?_⟩
  · rw [hb, mapWithIndex_length]
  · rintro l rfl i
    rw [hb, mapWithIndex_get?]
    cases hx : (e0 :: rest).get? i with
    | none => rfl
    | some e =>
      simp only [Option.map_some']
      have : groupBranchUpdate e0.type (.varr l) keyAttrs sanitizeHtml (0 + i) e =
          applyKeyAttrs (populateElement e (l.getD i (.vstr "")) sanitizeHtml)
            keyAttrs := by
        simp only [groupBranchUpdate, hnr, hnc, Bool.false_eq_true, if_false,
          Nat.zero_add, valuesToSetOf]
        exact populateIndexedElement_arr e l (.varr l) i sanitizeHtml keyAttrs
      rw [this]
  · intro hscal i
    rw [hb, mapWithIndex_get?]
    cases hx : (e0 :: rest).get? i with
    | none => rfl
    | some e =>
      simp only [Option.map_some']
      have : groupBranchUpdate e0.type value keyAttrs sanitizeHtml (0 + i) e =
          applyKeyAttrs (populateElement e value sanitizeHtml) keyAttrs := by
        simp only [groupBranchUpdate, hnr, hnc, Bool.false_eq_true, if_false]
        rw [valuesToSetOf_scalar value hscal]
        exact populateIndexedElement_scalar e value (0 + i) sanitizeHtml keyAttrs
      rw [this]

/-- A second text input named `a`, for the C7 witness. -/
def textInputA2 : Element := { blankElement with
  tagName := "input"
  type := "text"
  name := some "a"
  value := "old2" }

/-- Witness for C7: distributing the three-entry sequence [x, y, z] over the
two text inputs writes x and y positionally (z is dropped — the group keeps
length 2) and the scalar branch writes one value everywhere. -/
theorem fanout_positional_distribution_witness :
    (populateGroup [textInputA, textInputA2]
        (.varr [.vstr "x", .vstr "y", .vstr "z"]) none true).length = 2 ∧
    (populateGroup [textInputA, textInputA2]
        (.varr [.vstr "x", .vstr "y", .vstr "z"]) none true).get? 1 =
      (([textInputA, textInputA2] : List Element).get? 1).map (fun e =>
        applyKeyAttrs (populateElement e
          (([JSVal.vstr "x", .vstr "y", .vstr "z"]).getD 1 (.vstr "")) true) none) ∧
    (populateGroup [textInputA, textInputA2]
        (.varr [.vstr "x", .vstr "y", .vstr "z"]) none true).map
        (fun e => e.value) = ["x", "y"] := by
  have h := fanout_positional_distribution textInputA [textInputA2]
    (fun h => List.noConfusion h) rfl rfl
    (.varr [.vstr "x", .vstr "y", .vstr "z"]) none true
  exact ⟨h.1, h.2.1 [.vstr "x", .vstr "y", .vstr "z"] rfl 1, rfl⟩

/-- `_clearSelect` deselects every option, whatever adapter is attached. -/
theorem clearSelect_options (e : Element) :
    (clearSelect e).options =
      e.options.map (fun (o : SelectOption) => { o with selected := false }) := by
  unfold clearSelect
  by_cases a : e.tomselect = true <;> by_cases b : e.selectize = true <;>
    by_cases c : e.chosenActive = true <;> simp [a, b, c]

/-- `_clearSelect` does not change the adapter flags or the multiple flag. -/
theorem clearSelect_fields (e : Element) :
    (clearSelect e).tomselect = e.tomselect ∧
    (clearSelect e).selectize = e.selectize ∧
    (clearSelect e).chosenActive = e.chosenActive ∧
    (clearSelect e).multiple = e.multiple := by
  unfold clearSelect
  by_cases a : e.tomselect = true <;> by_cases b : e.selectize = true <;>
    by_cases c : e.chosenActive = true <;> simp [a, b, c]

/-- Every adapter call `_clearSelect` adds is a clear, never a value
dispatch. -/
theorem clearSelect_events (e : Element) :
    ∀ ev ∈ (clearSelect e).events, ev ∈ e.events ∨ ev.isSetDispatch = false := by
  intro ev hev
  unfold clearSelect at hev
  by_cases a : e.tomselect = true
  · simp [a, List.mem_append] at hev
    rcases hev with h | h | h
    · exact Or.inl h
    · subst h; exact Or.inr rfl
    · subst h; exact Or.inr rfl
  · by_cases b : e.selectize = true
    · simp [a, b, List.mem_append] at hev
      rcases hev with h | h
      · exact Or.inl h
      · subst h; exact Or.inr rfl
    · by_cases c : e.chosenActive = true
      · simp [a, b, c, List.mem_append] at hev
        rcases hev with h | h
        · exact Or.inl h
        · subst h; exact Or.inr rfl
      · simp [a, b, c] at hev
        exact Or.inl hev

/-- With no adapter attached, `_clearSelect` is exactly the native option
deselection. -/
theorem clearSelect_native (e : Element) (h1 : e.tomselect = false)
    (h2 : e.selectize = false) (h3 : e.chosenActive = false) :
    clearSelect e =
      { e with options :=
          e.options.map (fun (o : SelectOption) => { o with selected := false }) } := by
  unfold clearSelect
  simp [h1, h2, h3]

/-- The empty guard of `_populateSelect` stops at the cleared state. -/
theorem populateSelect_guard (e : Element) (value : JSVal)
    (h : selectGuardEmpty value = true) :
    populateSelect e value = clearSelect e := by
  unfold populateSelect
  rw [h]
  rfl

/-- The native scalar loop leaves everything untouched when no option
matches. -/
theorem selectFirstMatch_none (v : JSVal) (opts : List SelectOption)
    (h : ∀ o ∈ opts, jsLooseEqStr o.value v = false) :
    selectFirstMatch v opts = opts := by
  induction opts with
  | nil => rfl
  | cons o rest ih =>
    have ho := h o (List.mem_cons_self o rest)
    simp only [selectFirstMatch, ho, Bool.false_eq_true, if_false]
    rw [ih (fun x hx => h x (List.mem_cons_of_mem o hx))]

/-- The native scalar loop selects the first matching option and stops. -/
theorem selectFirstMatch_found (v : JSVal) (pre : List SelectOption)
    (o : SelectOption) (post : List SelectOption)
    (hpre : ∀ x ∈ pre, jsLooseEqStr x.value v = false)
    (ho : jsLooseEqStr o.value v = true) :
    selectFirstMatch v (pre ++ o :: post) =
      pre ++ ({ o with selected := true } :: post) := by
  induction pre with
  | nil => simp [selectFirstMatch, ho]
  | cons x rest ih =>
    have hx := hpre x (List.mem_cons_self x rest)
    simp only [List.cons_append, selectFirstMatch, hx, Bool.false_eq_true, if_false]
    rw [List.append_eq, ih (fun y hy => hpre y (List.mem_cons_of_mem x hy))]

/-- With no adapter, a non-empty array value selects exactly the options some
entry loose-matches. -/
theorem populateSelect_native_arr (e : Element) (l : List JSVal)
    (h1 : e.tomselect = false) (h2 : e.selectize = false)
    (h3 : e.chosenActive = false) (hne : l ≠ []) :
    (populateSelect e (.varr l)).options =
      e.options.map (fun (o : SelectOption) =>
        { o with selected := l.any (fun v => jsLooseEqStr o.value v) }) := by
  have hguard : selectGuardEmpty (.varr l) = false := by
    cases l with
    | nil => exact absurd rfl hne
    | cons a t => rfl
  unfold populateSelect
  rw [hguard, clearSelect_native e h1 h2 h3]
  simp [h1, h2, h3, List.map_map]

/-- With no adapter, a scalar value that passes the guard runs the native
first-match loop on the cleared options. -/
theorem populateSelect_native_scalar_eq (e : Element) (value : JSVal)
    (h1 : e.tomselect = false) (h2 : e.selectize = false)
    (h3 : e.chosenActive = false) (hguard : selectGuardEmpty value = false)
    (hscal : isArr value = false) :
    populateSelect e value =
      { clearSelect e with
          options := selectFirstMatch value (clearSelect e).options } := by
  unfold populateSelect
  rw [hguard]
  have c1 := (clearSelect_fields e).1
  have c2 := (clearSelect_fields e).2.1
  have c3 := (clearSelect_fields e).2.2.1
  simp only [Bool.false_eq_true, if_false, c1, c2, c3, h1, h2, h3]
  cases value <;> first | rfl | simp [isArr] at hscal


/-- C5: in the native select fallback (no adapter attached, value past the
empty guard): a sequence value selects exactly the options loose-matched by
some entry; a scalar value selects only the *first* loose-matching option
(everything after it stays as the clear left it); and with no matching option
the select stays fully cleared — it never defaults to the first option. -/
theorem select_native_fallback (e : Element) (value : JSVal)
    (h1 : e.tomselect = false) (h2 : e.selectize = false)
    (h3 : e.chosenActive = false) (hguard : selectGuardEmpty value = false) :
    (∀ l, value = .varr l →
      (populateSelect e value).options =
        e.options.map (fun (o : SelectOption) =>
          { o with selected := l.any (fun v => jsLooseEqStr o.value v) })) ∧
    (isArr value = false →
      (∀ pre o post, e.options = pre ++ o :: post →
        (∀ x ∈ pre, jsLooseEqStr x.value value = false) →
        jsLooseEqStr o.value value = true →
        (populateSelect e value).options =
          pre.map (fun (x : SelectOption) => { x with selected := false }) ++
            ({ o with selected := true } ::
              post.map (fun (x : SelectOption) => { x with selected := false }))) ∧
      ((∀ o ∈ e.options, jsLooseEqStr o.value value = false) →
        ∀ o ∈ (populateSelect e value).options, o.selected = false)) := by
  constructor
  · rintro l rfl
    have hne : l ≠ [] := by
      intro hl
      subst hl
      simp [selectGuardEmpty] at hguard
    exact populateSelect_native_arr e l h1 h2 h3 hne
  · intro hscal
    have heq := populateSelect_native_scalar_eq e value h1 h2 h3 hguard hscal
    constructor
    · intro pre o post hopts hpre ho
      rw [heq]
      have hcl : (clearSelect e).options =
          pre.map (fun (x : SelectOption) => { x with selected := false }) ++
            ({ o with selected := false } ::
              post.map (fun (x : SelectOption) => { x with selected := false })) := by
        rw [clearSelect_options, hopts]
        simp
      simp only [hcl]
      rw [selectFirstMatch_found value
        (pre.map (fun (x : SelectOption) => { x with selected := false }))
        ({ o with selected := false })
        (post.map (fun (x : SelectOption) => { x with selected := false }))
        (by
          intro x hx
          rcases List.mem_map.mp hx with ⟨y, hy, rfl⟩
          exact hpre y hy)
        ho]
    · intro hnone
      rw [heq]
      intro o ho
      simp only at ho
      rw [selectFirstMatch_none value _ (by
        intro x hx
        rw [clearSelect_options] at hx
        rcases List.mem_map.mp hx with ⟨y, hy, rfl⟩
        exact hnone y hy)] at ho
      rw [clearSelect_options] at ho
      rcases List.mem_map.mp ho with ⟨y, _, rfl⟩
      rfl

/-- A native select whose options are `a`, `b`, `a` (the `b` initially
selected), for the C5 witness. -/
def nativeSelectABA : Element := { blankElement with
  tagName := "select"
  name := some "sel"
  options := [{ value := "a", selected := false },
              { value := "b", selected := true },
              { value := "a", selected := false }] }

/-- Witness for C5: the scalar `a` selects only the *first* option valued `a`,
deselecting the previously selected `b` and leaving the second `a`
unselected. -/
theorem select_native_fallback_witness :
    selectGuardEmpty (.vstr "a") = false ∧
    (populateSelect nativeSelectABA (.vstr "a")).options =
      [{ value := "a", selected := true },
       { value := "b", selected := false },
       { value := "a", selected := false }] := by
  refine ⟨rfl, ?_⟩
  have h := ((select_native_fallback nativeSelectABA (.vstr "a") rfl rfl rfl rfl).2
    rfl).1 [] { value := "a", selected := false }
    [{ value := "b", selected := true }, { value := "a", selected := false }]
    rfl (fun x hx => absurd hx (List.not_mem_nil x)) rfl
  rw [h]
  rfl

/-- C6: a `null`, `undefined`, empty-string or empty-sequence value on a
select leaves the element fully cleared — every option unselected and no
adapter value dispatch (only clears are ever issued) — so a multi-select then
extracts as the empty sequence. -/
theorem select_empty_value_clears (e : Element) (value : JSVal)
    (sanitizeHtml : Bool) (htag : strToLower e.tagName = "select")
    (hempty : value = .vnull ∨ value = .vundef ∨ value = .vstr "" ∨
      value = .varr []) :
    (∀ o ∈ (populateElement e value sanitizeHtml).options, o.selected = false) ∧
    (∀ ev ∈ (populateElement e value sanitizeHtml).events,
      ev ∈ e.events ∨ ev.isSetDispatch = false) ∧
    (e.multiple = true →
      extractSelectValue (populateElement e value sanitizeHtml) = .glist []) := by
  have hpe : populateElement e value sanitizeHtml = clearSelect e := by
    rcases hempty with rfl | rfl | rfl | rfl
    · rw [show populateElement e .vnull sanitizeHtml =
          populateSelect e (.vstr "") from by
        unfold populateElement; simp [htag, jsEqNull]]
      exact populateSelect_guard e (.vstr "") rfl
    · rw [show populateElement e .vundef sanitizeHtml =
          populateSelect e (.vstr "") from by
        unfold populateElement; simp [htag, jsEqNull]]
      exact populateSelect_guard e (.vstr "") rfl
    · rw [show populateElement e (.vstr "") sanitizeHtml =
          populateSelect e (.vstr "") from by
        unfold populateElement; simp [htag, jsEqNull]]
      exact populateSelect_guard e (.vstr "") rfl
    · rw [show populateElement e (.varr []) sanitizeHtml =
          populateSelect e (.varr []) from by
        unfold populateElement; simp [htag, jsEqNull]]
      exact populateSelect_guard e (.varr []) rfl
  refine ⟨?_, ?_, ?_⟩
  · intro o ho
    rw [hpe, clearSelect_options] at ho
    rcases List.mem_map.mp ho with ⟨y, _, rfl⟩
    rfl
  · intro ev hev
    rw [hpe] at hev
    exact clearSelect_events e ev hev
  · intro hmul
    rw [hpe]
    unfold extractSelectValue
    have hm : (clearSelect e).multiple = true := by
      rw [(clearSelect_fields e).2.2.2, hmul]
    rw [hm]
    simp only [if_true]
    have hfil : ((clearSelect e).options.filter (fun o => o.selected)) = [] := by
      rw [List.filter_eq_nil_iff]
      intro o ho
      rw [clearSelect_options] at ho
      rcases List.mem_map.mp ho with ⟨y, _, rfl⟩
      simp
    rw [hfil]
    rfl

/-- A multi-select named `sel` with both options selected, for the C6
witness. -/
def multiSelectPrior : Element := { blankElement with
  tagName := "select"
  name := some "sel"
  multiple := true
  options := [{ value := "1", selected := true },
              { value := "2", selected := true }] }

/-- Witness for C6: populating the already-selected multi-select with `null`
leaves every option unselected and it extracts as the empty sequence. -/
theorem select_empty_value_clears_witness :
    strToLower multiSelectPrior.tagName = "select" ∧
    (∀ o ∈ (populateElement multiSelectPrior .vnull true).options,
      o.selected = false) ∧
    extractSelectValue (populateElement multiSelectPrior .vnull true) =
      .glist [] := by
  have h := select_empty_value_clears multiSelectPrior .vnull true rfl (Or.inl rfl)
  exact ⟨rfl, h.1, h.2.2 rfl⟩


/-- `String.toList` distributes over append. -/
theorem strToList_append (a b : String) :
    (a ++ b).toList = a.toList ++ b.toList := by
  cases a
  cases b
  rfl

/-- One escaped character never contains a raw angle bracket. -/
theorem escapeHtmlChar_no_angle (c : Char) :
    ∀ x ∈ (escapeHtmlChar c).toList, x ≠ '<' ∧ x ≠ '>' := by
  unfold escapeHtmlChar
  by_cases h1 : c = '&'
  · rw [if_pos h1]; decide
  · rw [if_neg h1]
    by_cases h2 : c = '<'
    · rw [if_pos h2]; decide
    · rw [if_neg h2]
      by_cases h3 : c = '>'
      · rw [if_pos h3]; decide
      · rw [if_neg h3]
        intro x hx
        have hxc : x = c := by
          simpa [String.singleton, String.toList] using hx
        subst hxc
        exact ⟨h2, h3⟩

/-- An escaped character list never contains a raw angle bracket. -/
theorem escapeChars_no_angle (l : List Char) :
    ∀ x ∈ (escapeChars l).toList, x ≠ '<' ∧ x ≠ '>' := by
  induction l with
  | nil =>
    intro x hx
    rw [show (escapeChars []).toList = [] from rfl] at hx
    exact absurd hx (List.not_mem_nil x)
  | cons c cs ih =>
    intro x hx
    rw [show escapeChars (c :: cs) = escapeHtmlChar c ++ escapeChars cs from rfl,
      strToList_append] at hx
    rcases List.mem_append.mp hx with h | h
    · exact escapeHtmlChar_no_angle c x h
    · exact ih x h

/-- C8: on a list container a sequence value rebuilds the entire content: the
result's markup is the nested-list renderer output, independent of the prior
content and of the `sanitizeHtml` flag; each scalar entry renders as one
`<li>` with HTML-escaped text and each nested sequence as one `<li>` wrapping
a nested list of the parent's tag, recursively; the escaper never emits a raw
angle bracket. -/
theorem list_renderer_rebuild (e : Element) (l : List JSVal) (sanitizeHtml : Bool)
    (htag : strToLower e.tagName = "ul" ∨ strToLower e.tagName = "ol") :
    (populateElement e (.varr l) sanitizeHtml =
      { e with innerHTML := buildNestedListHtml (strToLower e.tagName) l }) ∧
    (populateElement e (.varr l) true = populateElement e (.varr l) false) ∧
    (∀ h0, populateElement { e with innerHTML := h0 } (.varr l) sanitizeHtml =
      { e with innerHTML := buildNestedListHtml (strToLower e.tagName) l }) ∧
    (∀ t, listItemHtml (strToLower e.tagName) (.vstr t) =
      "<li>" ++ escapeHtml t ++ "</li>") ∧
    (∀ sub, listItemHtml (strToLower e.tagName) (.varr sub) =
      "<li><" ++ strToLower e.tagName ++ ">" ++
        buildNestedListHtml (strToLower e.tagName) sub ++
        "</" ++ strToLower e.tagName ++ "></li>") ∧
    (∀ t x, x ∈ (escapeHtml t).toList → x ≠ '<' ∧ x ≠ '>') := by
  have hmain : ∀ (s : Bool) (h0 : String),
      populateElement { e with innerHTML := h0 } (.varr l) s =
        { e with innerHTML := buildNestedListHtml (strToLower e.tagName) l } := by
    intro s h0
    unfold populateElement populateList
    rcases htag with h | h <;> simp [h, jsEqNull]
  refine ⟨?_, ?_, ?_, ?_, ?_, ?_⟩
  · exact hmain sanitizeHtml e.innerHTML
  · exact (hmain true e.innerHTML).trans (hmain false e.innerHTML).symm
  · exact fun h0 => hmain sanitizeHtml h0
  · intro t; rfl
  · intro sub; rfl
  · exact fun t x hx => escapeChars_no_angle t.toList x hx

/-- A `ul` container named `menu`, for the C8 witness. -/
def menuList : Element := { blankElement with
  tagName := "ul"
  name := some "menu"
  innerHTML := "<li>stale</li>" }

/-- Witness for C8: populating the list with `['A', ['B', 'C']]` produces a
top-level item `A` and a top-level item wrapping a nested `ul` with items `B`
and `C`, replacing the stale content, for both sanitize modes. -/
theorem list_renderer_rebuild_witness :
    (strToLower menuList.tagName = "ul" ∨ strToLower menuList.tagName = "ol") ∧
    (populateElement menuList (.varr [.vstr "A", .varr [.vstr "B", .vstr "C"]])
        true).innerHTML = "<li>A</li><li><ul><li>B</li><li>C</li></ul></li>" ∧
    populateElement menuList (.varr [.vstr "A", .varr [.vstr "B", .vstr "C"]])
        true =
      populateElement menuList (.varr [.vstr "A", .varr [.vstr "B", .vstr "C"]])
        false := by
  have h := list_renderer_rebuild menuList [.vstr "A", .varr [.vstr "B", .vstr "C"]]
    true (Or.inl rfl)
  refine ⟨Or.inl rfl, ?_, h.2.1⟩
  rw [h.1]
  rfl

/-- C9 counterexample: a keys sequence containing the non-string entry `5` is
not rejected — getValues returns an ordinary result object — although such a
sequence is not a sequence of strings. -/
theorem getValues_nonstring_key_counterexample :
    getValues (some { nodeTypeTruthy := true, elems := [] })
        (.varr [.vstr "a", .vnum 5]) = .ok [] ∧
    ¬ (∀ v ∈ [JSVal.vstr "a", JSVal.vnum 5], ∃ t, v = .vstr t) := by
  constructor
  · rfl
  · intro h
    rcases h (.vnum 5)
      (List.mem_cons_of_mem _ (List.mem_cons_self _ _)) with ⟨t, ht⟩
    cases ht

/-- The per-key fold of getValues ignores non-string keys entirely. -/
theorem foldl_skip_nonstring (elems : List Element) (ks : List JSVal)
    (acc : List (String × GotVal)) :
    ks.foldl (fun acc k =>
      match k with
      | JSVal.vstr key =>
        match extractKey elems key with
        | some v => objSet acc key v
        | none => acc
      | _ => acc) acc =
    (ks.filter (fun k => isVStr k)).foldl (fun acc k =>
      match k with
      | JSVal.vstr key =>
        match extractKey elems key with
        | some v => objSet acc key v
        | none => acc
      | _ => acc) acc := by
  induction ks generalizing acc with
  | nil => rfl
  | cons k t ih =>
    cases k <;> simp only [List.foldl_cons, List.filter, isVStr] <;> exact ih _

/-- C9 amended: getValues throws exactly when the container is invalid or the
keys argument is not a sequence at all; a sequence containing non-string
entries is *not* rejected — each non-string entry is skipped (logged) and the
remaining string keys are processed normally. -/
theorem getValues_keys_validation_amended (container : Option Container)
    (keys : JSVal) :
    ((∃ msg, getValues container keys = .error msg) ↔
      (containerInvalid container = true ∨ isArr keys = false)) ∧
    (∀ ks, keys = .varr ks → containerInvalid container = false →
      getValues container keys =
        getValues container (.varr (ks.filter (fun k => isVStr k)))) := by
  constructor
  · constructor
    · rintro ⟨msg, hmsg⟩
      by_cases hc : containerInvalid container = true
      · exact Or.inl hc
      · right
        simp only [Bool.not_eq_true] at hc
        cases keys with
        | varr ks =>
          unfold getValues at hmsg
          rw [hc] at hmsg
          exact absurd hmsg (by simp)
        | vstr t => rfl
        | vnum n => rfl
        | vbool b => rfl
        | vnull => rfl
        | vundef => rfl
        | vobj f => rfl
    · rintro (hc | hk)
      · refine ⟨"Container must be a valid DOM element", ?_⟩
        unfold getValues
        rw [hc]
        rfl
      · by_cases hc : containerInvalid container = true
        · refine ⟨"Container must be a valid DOM element", ?_⟩
          unfold getValues
          rw [hc]
          rfl
        · simp only [Bool.not_eq_true] at hc
          refine ⟨"Keys must be an array", ?_⟩
          unfold getValues
          rw [hc]
          cases keys with
          | varr ks => simp [isArr] at hk
          | vstr t => rfl
          | vnum n => rfl
          | vbool b => rfl
          | vnull => rfl
          | vundef => rfl
          | vobj f => rfl
  · rintro ks rfl hc
    unfold getValues
    rw [hc]
    simp only [Bool.false_eq_true, if_false]
    congr 1
    exact foldl_skip_nonstring (containerElems container) ks []

/-- Witness for the amended C9: a valid container and the mixed keys sequence
`["a", 5]` give the same result as the string-only keys `["a"]`. -/
theorem getValues_keys_validation_amended_witness :
    containerInvalid (some { nodeTypeTruthy := true, elems := [] }) = false ∧
    getValues (some { nodeTypeTruthy := true, elems := [] })
        (.varr [.vstr "a", .vnum 5]) =
      getValues (some { nodeTypeTruthy := true, elems := [] })
        (.varr ([JSVal.vstr "a", JSVal.vnum 5].filter (fun k => isVStr k))) :=
  ⟨rfl, (getValues_keys_validation_amended
      (some { nodeTypeTruthy := true, elems := [] })
      (.varr [.vstr "a", .vnum 5])).2 [.vstr "a", .vnum 5] rfl rfl⟩


/-- C1 counterexample: at the empty key with no matching name, the source
reaches `querySelector('#')` and throws a SyntaxError instead of yielding an
empty group — "resolution never throws" fails on the code. -/
theorem resolver_never_throws_counterexample :
    (blankElement.name == some "") = false ∧
    (blankElement.id == some "") = false ∧
    resolveByNameOrId [blankElement] "" =
      .error "SyntaxError: invalid selector #" :=
  ⟨rfl, rfl, rfl⟩

/-- C1 (amended): resolution first collects all elements whose name equals
the key and returns them in document order; when that set is empty and the
key is non-empty it falls back to the single element whose id equals the key
(a one-element or empty group) — so a group is all-by-name or the single
by-id fallback, never mixed, and absence yields an empty group; but when the
set is empty and the key is the *empty string*, the id query `#` is an
invalid selector and resolution throws a SyntaxError, which the callers
catch per key (the key then behaves as an empty group). -/
theorem resolver_name_wins_id_fallback_amended (elems : List Element)
    (key : String) :
    ((∃ e ∈ elems, e.name = some key) →
      resolveByNameOrId elems key =
        .ok (elems.filter (fun e => e.name == some key)) ∧
      (elems.filter (fun e => e.name == some key)).Sublist elems ∧
      elems.filter (fun e => e.name == some key) ≠ [] ∧
      ∀ e ∈ elems.filter (fun e => e.name == some key), e.name = some key) ∧
    ((∀ e ∈ elems, e.name ≠ some key) → key ≠ "" →
      ∃ l, resolveByNameOrId elems key = .ok l ∧ l.length ≤ 1 ∧
        ∀ e ∈ l, e.id = some key) ∧
    ((∀ e ∈ elems, e.name ≠ some key) → key = "" →
      ∃ msg, resolveByNameOrId elems key = .error msg) ∧
    ((∀ e ∈ elems, e.name ≠ some key ∧ e.id ≠ some key) → key ≠ "" →
      resolveByNameOrId elems key = .ok []) ∧
    (findElementsByNameOrId elems key =
      match resolveByNameOrId elems key with
      | .ok l => l
      | .error _ => []) := by
  refine ⟨?_, ?_, ?_, ?_, rfl⟩
  · rintro ⟨e, he, hname⟩
    have hmem : e ∈ elems.filter (fun e => e.name == some key) := by
      simp [List.mem_filter, he, hname]
    have hne : elems.filter (fun e => e.name == some key) ≠ [] :=
      fun h => by simp [h] at hmem
    have hpos : (elems.filter (fun e => e.name == some key)).length > 0 :=
      List.length_pos.mpr hne
    refine ⟨?_, List.filter_sublist _, hne, ?_⟩
    · unfold resolveByNameOrId
      simp [hpos]
    · intro x hx
      simpa using (List.mem_filter.mp hx).2
  · intro hno hk
    have hempty : elems.filter (fun e => e.name == some key) = [] := by
      rw [List.filter_eq_nil_iff]
      intro e he
      simpa using hno e he
    unfold resolveByNameOrId
    simp only [hempty, List.length_nil, gt_iff_lt, lt_irrefl, if_false, hk]
    cases hfind : elems.find? (fun e => e.id == some key) with
    | none =>
      exact ⟨[], rfl, by simp, fun e he => absurd he (List.not_mem_nil e)⟩
    | some e =>
      have hid := List.find?_some hfind
      refine ⟨[e], rfl, by simp, ?_⟩
      intro x hx
      rcases List.mem_singleton.mp hx with rfl
      simpa using hid
  · intro hno hk
    subst hk
    have hempty : elems.filter (fun e => e.name == some "") = [] := by
      rw [List.filter_eq_nil_iff]
      intro e he
      simpa using hno e he
    unfold resolveByNameOrId
    simp [hempty]
  · intro hnone hk
    have hempty : elems.filter (fun e => e.name == some key) = [] := by
      rw [List.filter_eq_nil_iff]
      intro e he
      simpa using (hnone e he).1
    unfold resolveByNameOrId
    simp only [hempty, List.length_nil, gt_iff_lt, lt_irrefl, if_false, hk]
    cases hfind : elems.find? (fun e => e.id == some key) with
    | none => rfl
    | some e =>
      have hid := List.find?_some hfind
      have hmem := List.mem_of_find?_eq_some hfind
      exact absurd (by simpa using hid) (hnone e hmem).2

/-- A div with id `x`, for the C1 witness. -/
def divIdX : Element := { blankElement with
  id := some "x" }

/-- An input named `x`, for the C1 witness. -/
def inputNameX : Element := { blankElement with
  tagName := "input"
  name := some "x" }

/-- Witness for the amended C1 at concrete containers: the input named `x`
beats the div with id `x`, and the empty key with no name match resolves to
the thrown SyntaxError. -/
theorem resolver_name_wins_id_fallback_amended_witness :
    (∃ e ∈ [divIdX, inputNameX], e.name = some "x") ∧
    resolveByNameOrId [divIdX, inputNameX] "x" = .ok [inputNameX] ∧
    (∀ e ∈ [blankElement], e.name ≠ some "") ∧
    (∃ msg, resolveByNameOrId [blankElement] "" = .error msg) := by
  have hx : ∃ e ∈ [divIdX, inputNameX], e.name = some "x" :=
    ⟨inputNameX, List.mem_cons_of_mem _ (List.mem_cons_self _ _), rfl⟩
  have h1 := (resolver_name_wins_id_fallback_amended [divIdX, inputNameX] "x").1 hx
  have hno : ∀ e ∈ [blankElement], e.name ≠ some "" := by
    intro e he
    rcases List.mem_singleton.mp he with rfl
    exact fun h => Option.noConfusion h
  have h3 := (resolver_name_wins_id_fallback_amended [blankElement] "").2.2.1 hno rfl
  refine ⟨hx, ?_, hno, h3⟩
  rw [h1.1]
  rfl

end FormPop
